import Mathlib

/-!
Verification development for the rule-based fact-extraction core of the
analyze-ods-jobs repository (src/main.py).

The grammars, dictionaries and normalization functions are translated
directly from src/main.py.  The tokenizer and the pattern-matching engine
live in the external yargy library (not under src/), so they are modelled
from the specification (spec sections 4.1 and 4.2): greedy-leftmost
matching, backtracking alternation, longest match at a start position,
and suppression of matches that start inside an already returned span.
-/

namespace Ods

/-! ### Characters

Character helpers for the tokenizer model.  Python strings are sequences
of Unicode code points; we work over `List Char` with character indices,
which matches Python string indexing. -/

/-- Lowercase mapping covering ASCII letters and the Cyrillic range used by
the dictionaries (А..Я to а..я and Ё to ё).  Models Python case folding as
used by the caseless pipelines of src/main.py. -/
def lowerChar (c : Char) : Char :=
  if 'A' ≤ c ∧ c ≤ 'Z' then Char.ofNat (c.toNat + 32)
  else if 'А' ≤ c ∧ c ≤ 'Я' then Char.ofNat (c.toNat + 32)
  else if c = 'Ё' then 'ё'
  else c

/-- A Cyrillic letter (the U+0400 .. U+04FF block, covering а..я, А..Я, ё, Ё). -/
def isCyr (c : Char) : Bool := 0x400 ≤ c.toNat ∧ c.toNat ≤ 0x4FF

/-- An ASCII Latin letter. -/
def isLat (c : Char) : Bool := c.isAlpha

/-- An ASCII digit. -/
def isDigitC (c : Char) : Bool := c.isDigit

/-- Numeric value of a digit run, e.g. the value of the text of a Number token. -/
def natOfDigits (cs : List Char) : Nat :=
  cs.foldl (fun n c => n * 10 + (c.toNat - 48)) 0

/-! ### Tokens -/

/-- Token kinds: words (Cyrillic or Latin runs), integer digit runs, and
single punctuation or symbol characters. -/
inductive Tk where
  | word
  | int
  | punct
deriving DecidableEq, Repr

/-- Modelled from the spec: a token of the normalized text with its kind,
raw text and character offsets (section 4.1 of the spec; the actual
tokenizer is the yargy library tokenizer, not code under src/). -/
structure Token where
  kind : Tk
  text : List Char
  start : Nat
  stop : Nat
deriving DecidableEq, Repr

/-- Modelled from the spec: the tokenizer loop (spec section 4.1).
Whitespace separates tokens and is not itself a token; contiguous digit
runs become Number tokens; letter runs (split by script, Cyrillic versus
Latin, as the yargy tokenizer does) become word tokens; any other
character is a single punctuation or symbol token.  `fuel` is a structural
recursion bound; every step consumes at least one character, so an
initial fuel equal to the character count is always sufficient. -/
def tokenizeAux : Nat → Nat → List Char → List Token
  | 0, _, _ => []
  | _, _, [] => []
  | fuel+1, i, c :: cs =>
    if c.isWhitespace then
      tokenizeAux fuel (i+1) cs
    else if isDigitC c then
      let run := cs.takeWhile isDigitC
      ⟨Tk.int, c :: run, i, i + 1 + run.length⟩ ::
        tokenizeAux fuel (i + 1 + run.length) (cs.drop run.length)
    else if isCyr c then
      let run := cs.takeWhile isCyr
      ⟨Tk.word, c :: run, i, i + 1 + run.length⟩ ::
        tokenizeAux fuel (i + 1 + run.length) (cs.drop run.length)
    else if isLat c then
      let run := cs.takeWhile isLat
      ⟨Tk.word, c :: run, i, i + 1 + run.length⟩ ::
        tokenizeAux fuel (i + 1 + run.length) (cs.drop run.length)
    else
      ⟨Tk.punct, [c], i, i + 1⟩ :: tokenizeAux fuel (i+1) cs

/-- Modelled from the spec: tokenization of a text (spec section 4.1). -/
def tokenize (text : String) : List Token :=
  tokenizeAux text.data.length 0 text.data

/-! ### Pattern engine

Modelled from the spec (section 4.2): the combinator engine is the yargy
library, which is not code under src/.  A parser maps a token suffix to
the list of possible results in backtracking preference order; a result
is the number of consumed tokens paired with the interpreted value. -/

/-- Modelled from the spec: a compiled pattern evaluated on a token
suffix yields candidate results in preference order. -/
def P (α : Type) : Type := List Token → List (Nat × α)

/-- Interpretation mapping over a pattern's results. -/
def pmap (f : α → β) (p : P α) : P β :=
  fun ts => (p ts).map (fun r => (r.1, f r.2))

/-- Modelled from the spec: sequence of two patterns, token-adjacent,
combining consumed counts (spec section 4.2, Sequence). -/
def pseq (p : P α) (q : P β) : P (α × β) :=
  fun ts => (p ts).flatMap (fun r =>
    (q (ts.drop r.1)).map (fun s => (r.1 + s.1, (r.2, s.2))))

/-- Modelled from the spec: alternation, children tried in declaration
order (spec section 4.2, Alternative). -/
def por (p q : P α) : P α :=
  fun ts => p ts ++ q ts

/-- Modelled from the spec: optional pattern, presence preferred over
absence (spec section 4.2, Optional). -/
def popt (p : P α) : P (Option α) :=
  fun ts => (p ts).map (fun r => (r.1, some r.2)) ++ [(0, none)]

/-- Modelled from the spec: bounded repetition, zero or more up to the
bound, preferring the maximal count (spec section 4.2, Repeat). -/
def prepeat (p : P α) : Nat → P (List α)
  | 0 => fun _ => [(0, [])]
  | n+1 => fun ts =>
    (p ts).flatMap (fun r =>
      (prepeat p n (ts.drop r.1)).map (fun s => (r.1 + s.1, r.2 :: s.2)))
    ++ [(0, [])]

/-- A single-token pattern given by a partial interpretation of the token. -/
def ptoken (f : Token → Option α) : P α :=
  fun ts =>
    match ts with
    | [] => []
    | t :: _ =>
      match f t with
      | some a => [(1, a)]
      | none => []

/-- Modelled from the spec: dictionary pipeline match.  Each dictionary
entry's surface form is tokenized with the same tokenizer and compared
caselessly against a contiguous token run; the interpreted value is the
entry's canonical value (spec sections 4.2 and 4.3).  Morphological
pipelines of the source are modelled by their documented reduced-fidelity
fallback, caseless exact surface matching (spec section 9). -/
def ppipeline (entries : List (String × α)) : P α :=
  fun ts =>
    entries.filterMap (fun e =>
      let pat := (tokenize e.1).map (fun t => t.text.map lowerChar)
      if pat ≠ [] ∧ (ts.take pat.length).map (fun t => t.text.map lowerChar) = pat
      then some (pat.length, e.2)
      else none)

/-- The caseless literal predicate of the source (yargy caseless). -/
def pCaseless (s : String) : P Unit :=
  ptoken (fun t => if t.text.map lowerChar = s.data.map lowerChar then some () else none)

/-- The exact literal predicate of the source (yargy eq). -/
def pEq (s : String) : P Unit :=
  ptoken (fun t => if t.text = s.data then some () else none)

/-- SEP from src/main.py line 560: a punctuation token that is a dot or a comma. -/
def pSEP : P Unit :=
  ptoken (fun t => if t.text = ['.'] ∨ t.text = [','] then some () else none)

/-- The lte predicate of the source: a Number token whose value is at most
the bound; interprets to the numeric value. -/
def pLte (n : Nat) : P Nat :=
  ptoken (fun t =>
    if t.kind = Tk.int ∧ natOfDigits t.text ≤ n then some (natOfDigits t.text) else none)

/-- The and_(lte n, length_eq len) predicate of the source: a Number token
with value at most n whose text has exactly len characters; interprets to
the value paired with the text length. -/
def pLteLen (n len : Nat) : P Nat :=
  ptoken (fun t =>
    if t.kind = Tk.int ∧ natOfDigits t.text ≤ n ∧ t.text.length = len
    then some (natOfDigits t.text) else none)

/-- Like pLte but also returning the digit count, used by the FLOAT rule
to compute the fractional value. -/
def pLteWithLen (n : Nat) : P (Nat × Nat) :=
  ptoken (fun t =>
    if t.kind = Tk.int ∧ natOfDigits t.text ≤ n
    then some (natOfDigits t.text, t.text.length) else none)

/-! ### Exact decimal amounts

The source parses amounts as Python ints and floats; every amount the
grammar can produce is a nonnegative decimal with finitely many digits
(norm_int and norm_float on digit groups), so amounts are modelled as
exact decimals, a natural numerator over a power-of-ten denominator.
All comparisons are exact, matching Python's comparisons on these
values. -/

/-- An exact nonnegative decimal number: num divided by ten to the exp. -/
structure Dec where
  num : Nat
  exp : Nat
deriving DecidableEq, Repr

namespace Dec

/-- The decimal reading of a natural number. -/
def ofNat (n : Nat) : Dec := ⟨n, 0⟩

/-- Multiplication by a natural scale factor. -/
def mulNat (d : Dec) (k : Nat) : Dec := ⟨d.num * k, d.exp⟩

/-- Exact order on decimals by cross multiplication. -/
protected def le (a b : Dec) : Prop := a.num * 10 ^ b.exp ≤ b.num * 10 ^ a.exp

/-- Exact strict order on decimals by cross multiplication. -/
protected def lt (a b : Dec) : Prop := a.num * 10 ^ b.exp < b.num * 10 ^ a.exp

instance : LE Dec := ⟨Dec.le⟩
instance : LT Dec := ⟨Dec.lt⟩

instance (a b : Dec) : Decidable (a ≤ b) :=
  inferInstanceAs (Decidable (a.num * 10 ^ b.exp ≤ b.num * 10 ^ a.exp))

instance (a b : Dec) : Decidable (a < b) :=
  inferInstanceAs (Decidable (a.num * 10 ^ b.exp < b.num * 10 ^ a.exp))

/-- The rational value of a decimal, connecting the representation to
ordinary arithmetic. -/
def toQ (d : Dec) : ℚ := (d.num : ℚ) / ((10 ^ d.exp : Nat) : ℚ)

end Dec

instance (n : Nat) : OfNat Dec n := ⟨Dec.ofNat n⟩

instance : HMul Dec Nat Dec := ⟨Dec.mulNat⟩

/-! ### Vilka: constants and dictionaries (src/main.py lines 472-554) -/

def NET : String := "net"
def GROSS : String := "gross"

def RUB : String := "rub"
def USD : String := "usd"
def EUR : String := "eur"
def GBP : String := "gbp"

/-- K from src/main.py line 480. -/
def K : Nat := 1000

/-- M from src/main.py line 481. -/
def M : Nat := 1000000

/-- TAXES from src/main.py lines 483-497, in source order. -/
def TAXES : List (String × String) :=
  [("gross", GROSS), ("net", NET), ("гросс", GROSS), ("грязными", GROSS),
   ("до НДФЛ", GROSS), ("до вычета НДФЛ", GROSS), ("до налогов", GROSS),
   ("на руки", NET), ("нетто", NET), ("после НДФЛ", NET),
   ("после вычета НДФЛ", NET), ("после налогов", NET), ("чистыми", NET)]

/-- PER from src/main.py lines 503-511. -/
def PER : List String :=
  ["/mo", "/мес", "/месяц", "per month", "в мес", "в месяц", "/month"]

/-- SCALES from src/main.py lines 513-526. -/
def SCALES : List (String × Nat) :=
  [("k", K), ("к", K), ("т", K), ("т.", K), ("тыс", K), ("тыс.", K),
   ("тысяч", K), ("m", M), ("м", M), ("млн", M), ("млн.", M)]

/-- CURRENCIES from src/main.py lines 532-554. -/
def CURRENCIES : List (String × String) :=
  [("р", RUB), ("р.", RUB), ("руб", RUB), ("руб.", RUB), ("рубл", RUB),
   ("рублей", RUB), ("рос. руб.", RUB), ("₽", RUB), ("RUR", RUB),
   ("$", USD), ("$$", USD), ("USD", USD), ("долларов", USD),
   ("€", EUR), ("eur", EUR), ("euro", EUR), ("евро", EUR),
   ("£", GBP)]

/-- TAX pipeline from src/main.py line 499. -/
def TAX : P String := ppipeline TAXES

/-- PER pipeline from src/main.py line 503. -/
def pPER : P Unit := ppipeline (PER.map (fun s => (s, ())))

/-- SCALE pipeline from src/main.py line 528. -/
def SCALE : P Nat := ppipeline SCALES

/-- CURRENCY pipeline from src/main.py line 556. -/
def CURRENCY : P String := ppipeline CURRENCIES

/-! ### Vilka: the grammar (src/main.py lines 560-648) -/

/-- INT from src/main.py lines 568-580: either a single Number token with
value at most one million, or a grouped thousands form, a Number token of
value at most 999, an optional dot or comma separator, and an exactly
three digit Number token of value at most 999.  Interpretation is
norm_int (line 563): strip separators and parse, which for the grouped
form equals the first group times 1000 plus the three-digit group. -/
def INT : P Dec :=
  por (pmap (fun (v : Nat) => Dec.ofNat v) (pLte 1000000))
    (pmap (fun r => Dec.ofNat (r.1.1 * 1000 + r.2))
      (pseq (pseq (pLte 999) (popt pSEP)) (pLteLen 999 3)))

/-- FLOAT from src/main.py lines 589-595: a Number token of value at most
10, a dot or comma separator, and a Number token of value at most 100.
Interpretation is norm_float (line 583): the separator is read as a
decimal point, so the value is the integer part plus the fraction given
by the second token's digits. -/
def FLOAT : P Dec :=
  pmap (fun r => Dec.mk (r.1.1 * 10 ^ r.2.2 + r.2.1) r.2.2)
    (pseq (pseq (pLte 10) pSEP) (pLteWithLen 100))

/-- APPROX from src/main.py line 597. -/
def APPROX : P Unit := pEq "~"

/-- PLUS from src/main.py line 598. -/
def PLUS : P Unit := pEq "+"

/-- NUM from src/main.py lines 600-603. -/
def NUM : P Dec := por INT FLOAT

/-- One attribute token following an amount (src/main.py lines 605-610). -/
inductive Attr where
  | scale (v : Nat)
  | currency (c : String)
  | per
  | tax (t : String)
deriving DecidableEq, Repr

/-- ATTR from src/main.py lines 605-610: scale, currency, per-month marker
or tax phrase, tried in that order. -/
def ATTR : P Attr :=
  por (pmap Attr.scale SCALE)
    (por (pmap Attr.currency CURRENCY)
      (por (pmap (fun _ => Attr.per) pPER)
        (pmap Attr.tax TAX)))

/-- AMOUNT from src/main.py lines 612-616: an optional approximation mark,
the number, and an optional plus sign. -/
def AMOUNT : P Dec :=
  pmap (fun r => r.1.2) (pseq (pseq (popt APPROX) NUM) (popt PLUS))

/-- The Bound fact of src/main.py lines 424-427: an amount with optional
currency, scale and tax attributes. -/
structure BoundF where
  amount : Dec
  currency : Option String
  scale : Option Nat
  tax : Option String
deriving DecidableEq, Repr

/-- Writing one matched attribute into the Bound fact's slot, as the
source's interpretation layer does (a later write to the same slot
overwrites an earlier one). -/
def applyAttr (b : BoundF) : Attr → BoundF
  | .scale v => { b with scale := some v }
  | .currency c => { b with currency := some c }
  | .per => b
  | .tax t => { b with tax := some t }

/-- BOUND from src/main.py lines 618-624: an optional leading currency,
the amount, and up to four attribute tokens, folded into a Bound fact. -/
def BOUND : P BoundF :=
  pmap (fun r => r.2.2.foldl applyAttr ⟨r.2.1, r.1, none, none⟩)
    (pseq (popt CURRENCY) (pseq AMOUNT (prepeat ATTR 4)))

/-- OT from src/main.py line 626. -/
def OT : P Unit := pCaseless "от"

/-- DO from src/main.py line 628. -/
def DO : P Unit := pCaseless "до"

/-- DASH from src/main.py line 630. -/
def DASH : P Unit := pEq "-"

/-- A structurally matched salary range candidate: the raw min and max bounds. -/
abbrev VilkaRaw : Type := BoundF × BoundF

/-- VILKA from src/main.py lines 636-648: either the form with the words
meaning from and to around the two bounds, or the two bounds joined by a
dash; min bound first, then max bound. -/
def VILKA : P VilkaRaw :=
  por
    (pmap (fun r => (r.2.1, r.2.2.2)) (pseq OT (pseq BOUND (pseq DO BOUND))))
    (pmap (fun r => (r.1, r.2.2)) (pseq BOUND (pseq DASH BOUND)))

/-! ### Vilka: normalization and validity (src/main.py lines 434-469) -/

/-- NormVilka from src/main.py lines 434-439. -/
structure NormVilka where
  min : Dec
  max : Dec
  currency : String
  tax : String
deriving DecidableEq, Repr

/-- norm_vilka from src/main.py lines 442-457: currency defaults through
the min bound, then the max bound, then rubles; tax likewise with net as
the default; scale comes from whichever bound carries one; with a scale
both amounts are multiplied by it, and with no scale both amounts are
multiplied by 1000 when the raw min lies in the interval from 20 to 600. -/
def norm_vilka (record : VilkaRaw) : NormVilka :=
  let currency :=
    match record.1.currency with
    | some c => c
    | none => match record.2.currency with
      | some c => c
      | none => RUB
  let tax :=
    match record.1.tax with
    | some t => t
    | none => match record.2.tax with
      | some t => t
      | none => NET
  let scale :=
    match record.1.scale with
    | some s => some s
    | none => record.2.scale
  let min := record.1.amount
  let max := record.2.amount
  match scale with
  | some s => ⟨min * s, max * s, currency, tax⟩
  | none =>
    if 20 ≤ min ∧ min ≤ 600 then ⟨min * K, max * K, currency, tax⟩
    else ⟨min, max, currency, tax⟩

/-- is_ok_vilka from src/main.py lines 460-469.  The Python function
returns None when min is not below max (falsy at the call site, modelled
as some false); for the rouble it checks the window from 20000 to 600000
and for dollars, euros and pounds the window from 1000 to 10000; for any
other currency the Python code would read unbound local variables and
raise a NameError, modelled as none. -/
def is_ok_vilka (record : NormVilka) : Option Bool :=
  if record.min ≥ record.max then some false
  else if record.currency = RUB then
    some (decide (record.min ≥ 20000 ∧ record.max ≤ 600000))
  else if record.currency = USD ∨ record.currency = EUR ∨ record.currency = GBP then
    some (decide (record.min ≥ 1000 ∧ record.max ≤ 10000))
  else none

/-! ### Location (src/main.py lines 708-778) -/

/-- MSK from src/main.py line 714. -/
def MSK : String := "Москва"

/-- SPB from src/main.py line 715. -/
def SPB : String := "Санкт-Петербург"

/-- CITIES from src/main.py lines 717-743, in source order. -/
def CITIES : List (String × String) :=
  [("Москва", MSK), ("default-city", MSK), ("Moscow", MSK),
   ("Санкт-Петербург", SPB), ("Петербург", SPB), ("СПб", SPB),
   ("Новосибирск", "Новосибирск"), ("Уфа", "Уфа"), ("Иннополис", "Иннополис"),
   ("Минск", "Минск"), ("Minsk", "Минск"),
   ("Киев", "Киев"), ("Kiev", "Киев"),
   ("Амстердам", "Амстердам"), ("Amsterdam", "Амстердам"),
   ("Лондон", "Лондон"), ("London", "Лондон"),
   ("New York", "Нью-Йорк")]

/-- METROS from src/main.py lines 749-760. -/
def METROS : List String :=
  ["Павелецкая", "Октябрьская", "Шаболовская", "Водный Стадион",
   "Выставочная", "Кутузовская", "Белорусская", "Аэропорт",
   "Динамо", "Таганская"]

/-- The remote-work keywords from src/main.py lines 766-772. -/
def REMOTES : List String := ["Удаленно", "Удаленка", "Remote", "удаленный"]

/-- CITY pipeline from src/main.py line 745. -/
def CITY : P String := ppipeline CITIES

/-- METRO pipeline from src/main.py line 762; its interpretation is the
normalized surface form, modelled as the dictionary entry itself. -/
def METRO : P String := ppipeline (METROS.map (fun s => (s, s)))

/-- REMOTE pipeline from src/main.py line 766. -/
def REMOTE : P Unit := ppipeline (REMOTES.map (fun s => (s, ())))

/-- The Location fact of src/main.py lines 708-711. -/
structure LocationF where
  city : Option String
  metro : Option String
  remote : Option Bool
deriving DecidableEq, Repr

/-- LOCATION from src/main.py lines 774-778: a city hit, a metro hit, or a
remote keyword hit, each branch writing a single field of the fact; the
remote branch writes the constant true. -/
def LOCATION : P LocationF :=
  por (pmap (fun c => LocationF.mk (some c) none none) CITY)
    (por (pmap (fun m => LocationF.mk none (some m) none) METRO)
      (pmap (fun _ => LocationF.mk none none (some true)) REMOTE))

/-! ### Position (src/main.py lines 788-896) -/

def INTERN : String := "intern"
def JUNIOR : String := "junior"
def MIDDLE : String := "middle"
def SENIOR : String := "senior"
def LEAD : String := "lead"

def DS : String := "DS"
def DA : String := "DA"
def DE : String := "DE"
def RESEARCHER : String := "researcher"
def ANALYST : String := "analyst"
def DEV : String := "dev"

/-- GRADES from src/main.py lines 807-831. -/
def GRADES : List (String × String) :=
  [("Стажер", INTERN),
   ("Юниор", JUNIOR), ("Младший", JUNIOR), ("Джун", JUNIOR),
   ("Jun", JUNIOR), ("Junior", JUNIOR),
   ("Мидл", MIDDLE), ("Mid", MIDDLE), ("Middle", MIDDLE),
   ("Старший", SENIOR), ("Сеньор", SENIOR), ("Синьёр", SENIOR), ("Senior", SENIOR),
   ("Лид", LEAD), ("Chief", LEAD), ("Head", LEAD), ("Lead", LEAD),
   ("Team Lead", LEAD), ("Tech Lead", LEAD)]

/-- TITLES from src/main.py lines 837-885. -/
def TITLES : List (String × String) :=
  [("DS", DS), ("Data Scientist", DS), ("Data Science", DS),
   ("Data Analyst", DA), ("Аналитик данных", DA),
   ("Analyst", ANALYST), ("бизнес-аналитик", ANALYST),
   ("Product Analytics", ANALYST), ("Бизнес аналитик", ANALYST),
   ("Product Analyst", ANALYST),
   ("Big Data Engineer", DE), ("DS-инженер", DE), ("Data Engineer", DE),
   ("Data-Engineer", DE), ("Deep Learning Engineer", DE), ("ML Engineer", DE),
   ("ML-Engineer", DE), ("ML-инженер", DE), ("Machine Learning Engineer", DE),
   ("СV Engineer", DE), ("CV Engineer", DE), ("NLP Engineer", DE),
   ("дата-инженер", DE), ("DL инженер", DE), ("DataOps Engineer", DE),
   ("ML разработчик", DE), ("ML-разработчик", DE), ("DL Engineer", DE),
   ("MLE", DE), ("AI Engineer", DE), ("Computer Vision Engineer", DE),
   ("Quantitative Researcher", RESEARCHER), ("ML Researcher", RESEARCHER),
   ("Researcher", RESEARCHER),
   ("Software Engineer", DEV), ("DevOps", DEV), ("MLOps", DEV),
   ("Python Developer", DEV), ("Software Developer", DEV),
   ("backend developer", DEV), ("python-разработчик", DEV)]

/-- GRADE pipeline from src/main.py line 833. -/
def GRADE : P String := ppipeline GRADES

/-- TITLE pipeline from src/main.py line 887. -/
def TITLE : P String := ppipeline TITLES

/-- The Position fact of src/main.py lines 788-791. -/
structure PositionF where
  grade : Option String
  title : Option String
deriving DecidableEq, Repr

/-- POSITION from src/main.py lines 891-896: a grade hit or a title hit,
each branch writing a single field of the fact. -/
def POSITION : P PositionF :=
  por (pmap (fun g => PositionF.mk (some g) none) GRADE)
    (pmap (fun t => PositionF.mk none (some t)) TITLE)

/-! ### Company dictionary (src/main.py lines 939-980) -/

/-- COMPANIES from src/main.py lines 939-976. -/
def COMPANIES : List (String × String) :=
  [("Yandex Data Factory", "yandex-team.ru"), ("Фабрику данных Яндекса", "yandex-team.ru"),
   ("Яндекс", "yandex-team.ru"), ("Яндекс.Go", "yandex-team.ru"),
   ("Яндекс.Алиса", "yandex-team.ru"), ("Яндекс.Вертикали", "yandex-team.ru"),
   ("Яндекс.Дзен", "yandex-team.ru"), ("Яндекс.Маркет", "yandex-team.ru"),
   ("Яндекс.Погода", "yandex-team.ru"), ("Яндекс.Поиск", "yandex-team.ru"),
   ("Яндекс.Такси", "yandex-team.ru"),
   ("Авито", "avito.ru"), ("Joom", "joom.ru"), ("Ozon", "ozon.ru"),
   ("OzonExpress", "ozon.ru"),
   ("SberCloud", "sberbank.ru"), ("SberDevices", "sberbank.ru"),
   ("SberGames", "sberbank.ru"), ("Сбер", "sberbank.ru"),
   ("СберТех", "sberbank.ru"), ("Сбербанк", "sberbank.ru"),
   ("HeadHunter", "hh.ru"), ("МТС", "mts.ru"),
   ("X5", "x5.ru"), ("ЛЕНТА", "lenta.ru"), ("Leroy Merlin", "leroymerlin.ru"),
   ("Тинькофф", "tinkoff.ru"), ("Tinkoff", "tinkoff.ru"),
   ("Райффайзенбанк", "raiffeisen.ru"), ("Альфа-Банк", "alfabank.ru"),
   ("банке Открытие", "open.ru")]

/-- COMPANY pipeline from src/main.py line 978. -/
def COMPANY : P String := ppipeline COMPANIES

/-! ### Email matching (src/main.py lines 906-929)

find_emails scans the text with the case-insensitive regular expression
for a local part, an at sign, a domain and a final dot-letters group.
The Python re engine is external, so its leftmost greedy backtracking
semantics for this fixed expression is modelled directly. -/

/-- A character of the regex class for the local part (letters, digits or
a dot, case-insensitive). -/
def localClass (c : Char) : Bool := c.isAlpha ∨ c.isDigit ∨ c = '.'

/-- A character of the regex class for the domain run (letters, digits,
dot or hyphen, case-insensitive). -/
def domainClass (c : Char) : Bool := c.isAlpha ∨ c.isDigit ∨ c = '.' ∨ c = '-'

/-- Modelled from the spec: backtracking of the domain tail of the email
regex.  The greedy domain run gives back characters until a dot followed
by two to seven letters fits, so the split dot is the last position in
the run with at least two letters after it; the letters group greedily
takes at most seven.  Returns the matched domain length. -/
def emailDomLenAux (dom : List Char) : Nat → Option Nat
  | 0 => none
  | p+1 =>
    if dom.get? (p+1) = some '.' ∧ 2 ≤ ((dom.drop (p+2)).takeWhile Char.isAlpha).length
    then some (p + 2 + min ((dom.drop (p+2)).takeWhile Char.isAlpha).length 7)
    else emailDomLenAux dom p

/-- Length of the email match starting exactly at the head of the
character list, when the regex of find_emails matches there. -/
def matchEmailAt (cs : List Char) : Option Nat :=
  let loc := cs.takeWhile localClass
  if loc = [] then none
  else
    match cs.drop loc.length with
    | '@' :: rest =>
      let dom := rest.takeWhile domainClass
      match emailDomLenAux dom (dom.length - 1) with
      | some dlen => some (loc.length + 1 + dlen)
      | none => none
    | _ => none

/-- The scanning loop of re.finditer: try each start position from left to
right, emit the span on success and continue after it.  `fuel` is a
structural recursion bound; every step consumes at least one character. -/
def findEmailsAux : Nat → Nat → List Char → List (Nat × Nat)
  | 0, _, _ => []
  | _, _, [] => []
  | fuel+1, i, c :: cs =>
    match matchEmailAt (c :: cs) with
    | some n =>
      if 0 < n then (i, i + n) :: findEmailsAux fuel (i + n) ((c :: cs).drop n)
      else findEmailsAux fuel (i+1) cs
    | none => findEmailsAux fuel (i+1) cs

/-- find_emails from src/main.py lines 906-909: the character spans of all
email matches in the text. -/
def find_emails (text : String) : List (Nat × Nat) :=
  findEmailsAux text.data.length 0 text.data

/-- email_domain from src/main.py lines 912-914: everything after the
first at sign. -/
def email_domain (s : List Char) : List Char :=
  (s.dropWhile (fun c => c ≠ '@')).drop 1

/-- GENERIC_EMAIL_DOMAINS from src/main.py lines 917-922. -/
def GENERIC_EMAIL_DOMAINS : List (List Char) :=
  ["gmail.com".data, "mail.ru".data, "yandex.ru".data, "mac.com".data]

/-- norm_domain from src/main.py lines 925-929: lowercase and strip a
leading www. prefix. -/
def norm_domain (value : List Char) : List Char :=
  let v := value.map lowerChar
  if v.take 4 = "www.".data then v.drop 4 else v

/-! ### The findall engine and the extractors (src/main.py lines 990-1082) -/

/-- One selection step: keep the result consuming strictly more tokens,
the earlier one on ties. -/
def pickStep (acc : Option (Nat × α)) (r : Nat × α) : Option (Nat × α) :=
  match acc with
  | none => some r
  | some b => if b.1 < r.1 then some r else some b

/-- Modelled from the spec: among the candidate results at one start
position the engine keeps the longest, the first of the enumeration
breaking ties, and only results consuming at least one token count
(spec section 4.2: first, leftmost, longest at that start position
wins). -/
def pickBest (rs : List (Nat × α)) : Option (Nat × α) :=
  (rs.filter (fun r => 0 < r.1)).foldl pickStep none

/-- Character offset just after the last of the first n tokens. -/
def spanStop (ts : List Token) (n : Nat) : Nat :=
  match ts[n - 1]? with
  | some tok => tok.stop
  | none => 0

/-- Modelled from the spec: the engine scans the token sequence left to
right, returns the selected match at each position, and suppresses
matches that start inside an already returned match's span by continuing
after the consumed tokens (spec section 4.2).  Results carry the start
and stop character offsets of the consumed token run.  `fuel` is a
structural recursion bound; every step consumes at least one token. -/
def findallAux (p : P α) : Nat → List Token → List (Nat × Nat × α)
  | 0, _ => []
  | _, [] => []
  | fuel+1, t :: rest =>
    match pickBest (p (t :: rest)) with
    | some (n, a) =>
      (t.start, spanStop (t :: rest) n, a) :: findallAux p fuel ((t :: rest).drop n)
    | none => findallAux p fuel rest

/-- Modelled from the spec: all non-overlapping matches of a pattern over
a token sequence, with character spans. -/
def findall (p : P α) (ts : List Token) : List (Nat × Nat × α) :=
  findallAux p ts.length ts

/-- The emitted fact value of a match (the value field of the source's
Match dataclass, typed as a tagged union here). -/
inductive FactValue where
  | vilka (v : NormVilka)
  | location (l : LocationF)
  | position (p : PositionF)
  | company (domain : String)
deriving DecidableEq, Repr

/-- Match from src/main.py lines 990-995. -/
structure Match where
  start : Nat
  stop : Nat
  type : String
  value : FactValue
deriving DecidableEq, Repr

/-- The const names from src/main.py lines 998-1002. -/
def constVILKA : String := "vilka"
def constLOCATION : String := "location"
def constPOSITION : String := "position"
def constCOMPANY : String := "company"

/-- VilkaExtractor from src/main.py lines 1005-1015: find all structural
matches of VILKA, normalize each, and emit those whose normalized value
passes is_ok_vilka (truthy, hence equal to some true). -/
def vilka_extractor (text : String) : List Match :=
  ((findall VILKA (tokenize text)).filter
      (fun r => is_ok_vilka (norm_vilka r.2.2) = some true)).map
    (fun r => ⟨r.1, r.2.1, constVILKA, FactValue.vilka (norm_vilka r.2.2)⟩)

/-- LocationExtractor from src/main.py lines 1018-1030. -/
def location_extractor (text : String) : List Match :=
  (findall LOCATION (tokenize text)).map
    (fun r => ⟨r.1, r.2.1, constLOCATION, FactValue.location r.2.2⟩)

/-- PositionExtractor from src/main.py lines 1033-1045. -/
def position_extractor (text : String) : List Match :=
  (findall POSITION (tokenize text)).map
    (fun r => ⟨r.1, r.2.1, constPOSITION, FactValue.position r.2.2⟩)

/-- The normalized domain of the email at a given span of the text
(src/main.py lines 1053-1056). -/
def email_span_domain (text : String) (se : Nat × Nat) : List Char :=
  norm_domain (email_domain ((text.data.drop se.1).take (se.2 - se.1)))

/-- The email-derived half of CompanyExtractor (src/main.py lines
1052-1058): email spans whose normalized domain is not on the free-mail
blocklist, emitted as Company matches at the email span. -/
def company_email_matches (text : String) : List Match :=
  ((find_emails text).filter
      (fun se => email_span_domain text se ∉ GENERIC_EMAIL_DOMAINS)).map
    (fun se => ⟨se.1, se.2, constCOMPANY, FactValue.company (String.mk (email_span_domain text se))⟩)

/-- The dictionary-derived half of CompanyExtractor (src/main.py lines
1060-1067). -/
def company_dict_matches (text : String) : List Match :=
  (findall COMPANY (tokenize text)).map
    (fun r => ⟨r.1, r.2.1, constCOMPANY, FactValue.company r.2.2⟩)

/-- CompanyExtractor from src/main.py lines 1048-1067: first the email
matches whose normalized domain is not on the free-mail blocklist, then
the company-dictionary matches of the pattern engine. -/
def company_extractor (text : String) : List Match :=
  company_email_matches text ++ company_dict_matches text

/-- Extractor from src/main.py lines 1070-1082: the façade runs the four
extractors in order and concatenates their match streams. -/
def extractor (text : String) : List Match :=
  vilka_extractor text ++ location_extractor text
    ++ position_extractor text ++ company_extractor text

/-! ### Text normalization (src/main.py lines 400-414) -/

/-- The dash variants folded by DASH_TRANS (src/main.py lines 407-410). -/
def DASH_CHARS : List Char := ['‑', '–', '—', '−']

/-- norm_text from src/main.py lines 413-414: fold every dash variant to
the canonical hyphen-minus, leaving every other character unchanged. -/
def norm_text (text : String) : String :=
  String.mk (text.data.map (fun c => if c ∈ DASH_CHARS then '-' else c))

/-- Modelled from the spec: the core performs its own dash-normalization
pass before tokenizing (spec sections 6 and 4.1).  The call site wiring
norm_text into extraction is not under src/ (norm_text has no caller
there), so the pipeline is modelled as extraction of the normalized
text. -/
def extractor_pipeline (text : String) : List Match :=
  extractor (norm_text text)

/-- Modelled from the spec: the salary-range stage of the pipeline, for
stating dash-insensitivity of a single extractor. -/
def vilka_pipeline (text : String) : List Match :=
  vilka_extractor (norm_text text)

/-! ### Specification-side definitions and properties -/

/-- Written from the spec's words (section 4.4, Normalization), to be
compared with norm_vilka: currency is the min bound's or else the max
bound's or else roubles; tax likewise defaulting to net; scale from the
min bound or else the max bound; with a scale both amounts are multiplied
by it, otherwise both amounts are multiplied by one thousand exactly when
the raw min lies in the interval from 20 to 600. -/
def spec_normalize (min max : BoundF) : NormVilka :=
  let currency := (min.currency.orElse (fun _ => max.currency)).getD RUB
  let tax := (min.tax.orElse (fun _ => max.tax)).getD NET
  match min.scale.orElse (fun _ => max.scale) with
  | some s => ⟨min.amount * s, max.amount * s, currency, tax⟩
  | none =>
    if 20 ≤ min.amount ∧ min.amount ≤ 600
    then ⟨min.amount * 1000, max.amount * 1000, currency, tax⟩
    else ⟨min.amount, max.amount, currency, tax⟩

/-- Two half-open character spans overlap. -/
def spansOverlap (a b : Match) : Prop :=
  a.start < b.stop ∧ b.start < a.stop

instance (a b : Match) : Decidable (spansOverlap a b) :=
  inferInstanceAs (Decidable (a.start < b.stop ∧ b.start < a.stop))

/-- No two matches of the stream have overlapping spans. -/
def NoOverlap (ms : List Match) : Prop :=
  ms.Pairwise (fun a b => ¬ spansOverlap a b)

instance (ms : List Match) : Decidable (NoOverlap ms) :=
  inferInstanceAs (Decidable (ms.Pairwise _))

/-- The stream preserves left-to-right span order: every match starts no
earlier than the preceding one. -/
def SortedStarts (ms : List Match) : Prop :=
  ms.Pairwise (fun a b => a.start ≤ b.start)

instance (ms : List Match) : Decidable (SortedStarts ms) :=
  inferInstanceAs (Decidable (ms.Pairwise _))

/-- Every result value a pattern can produce on any token suffix
satisfies the predicate. -/
def POut (p : P α) (Q : α → Prop) : Prop :=
  ∀ ts r, r ∈ p ts → Q r.2

/-- A pattern never consumes more tokens than are available. -/
def PWf (p : P α) : Prop :=
  ∀ ts r, r ∈ p ts → r.1 ≤ ts.length

/-- The values an attribute token can carry: scales from SCALES, currency
codes from CURRENCIES, tax bases from TAXES. -/
def AttrOK : Attr → Prop
  | .scale v => v = K ∨ v = M
  | .currency c => c = RUB ∨ c = USD ∨ c = EUR ∨ c = GBP
  | .per => True
  | .tax t => t = NET ∨ t = GROSS

/-- The currency and tax slots of a raw bound only ever hold dictionary
values. -/
def BOK (b : BoundF) : Prop :=
  (∀ c, b.currency = some c → c = RUB ∨ c = USD ∨ c = EUR ∨ c = GBP) ∧
  (∀ t, b.tax = some t → t = NET ∨ t = GROSS)

/-! ## Theorems -/

set_option maxRecDepth 8000

/-- norm_vilka agrees with the specification's normalization formula on
every pair of raw bounds. -/
theorem norm_vilka_eq_spec (b1 b2 : BoundF) :
    norm_vilka (b1, b2) = spec_normalize b1 b2 := by
  obtain ⟨a1, c1, s1, t1⟩ := b1
  obtain ⟨a2, c2, s2, t2⟩ := b2
  cases c1 <;> cases c2 <;> cases t1 <;> cases t2 <;> cases s1 <;> cases s2 <;> rfl

/-- Dash folding is idempotent on a single character. -/
theorem dashFold_idem (c : Char) :
    (if (if c ∈ DASH_CHARS then '-' else c) ∈ DASH_CHARS then '-'
     else (if c ∈ DASH_CHARS then '-' else c)) =
      (if c ∈ DASH_CHARS then '-' else c) := by
  by_cases h : c ∈ DASH_CHARS <;> simp [h]

/-- norm_text is idempotent: a normalized text is left unchanged. -/
theorem norm_text_idem (t : String) : norm_text (norm_text t) = norm_text t := by
  show String.mk (((t.data.map _).map _)) = _
  rw [List.map_map]
  exact congrArg String.mk (List.map_congr_left (fun c _ => dashFold_idem c))

/-- Claim C2: on the exact input text the salary-range extractor yields
exactly one match, spanning the whole phrase, whose value is the salary
range from 60000 to 300000 roubles, gross. -/
theorem C2_vilka_end_to_end :
    vilka_extractor "от 60К до 300К грязными" =
      [⟨0, 23, constVILKA, FactValue.vilka ⟨60000, 300000, RUB, GROSS⟩⟩] := by
  decide

/-- Claim C3: normalization computes currency, tax and scale by the
min-then-max-then-default rule, applies an explicit scale to both
amounts, and otherwise applies the implicit thousand heuristic exactly
when the raw min lies in the interval from 20 to 600; in particular the
input of two bare numbers 40 and 100 joined by a dash is emitted as the
salary range from 40000 to 100000 roubles, net. -/
theorem C3_normalization :
    (∀ b1 b2 : BoundF, norm_vilka (b1, b2) = spec_normalize b1 b2) ∧
    vilka_extractor "40 - 100" =
      [⟨0, 8, constVILKA, FactValue.vilka ⟨40000, 100000, RUB, NET⟩⟩] := by
  exact ⟨norm_vilka_eq_spec, by decide⟩

/-- Claim C4 counterexample: the company extractor's merged stream can
emit overlapping spans.  On an email address whose local part and domain
both contain a dictionary company name, the email match covers the whole
address while the dictionary matches cover the name inside it. -/
theorem C4_counterexample : ¬ NoOverlap (company_extractor "ozon@ozon.ru") := by
  decide

/-- Claim C5: the modelled pipeline normalizes dash variants before
extraction, so extraction is insensitive to pre-normalizing the input;
the en-dash salary range is matched exactly like the plain-dash one. -/
theorem C5_dash_insensitive :
    (∀ text : String, extractor_pipeline text = extractor_pipeline (norm_text text)) ∧
    vilka_pipeline "100–160" = vilka_extractor "100-160" ∧
    vilka_pipeline "100–160" =
      [⟨0, 7, constVILKA, FactValue.vilka ⟨100000, 160000, RUB, NET⟩⟩] := by
  refine ⟨fun text => ?_, by decide, by decide⟩
  simp only [extractor_pipeline, norm_text_idem]

/-- Claim C7: a free-mail address yields no Company match, while an
address on a non-blocklisted domain yields exactly one Company match
whose span is the character span of the address. -/
theorem C7_email_domain_filter :
    company_extractor "contact me at foo@gmail.com" = [] ∧
    company_extractor "contact me at ivan@acme.io" =
      [⟨14, 26, constCOMPANY, FactValue.company "acme.io"⟩] := by
  exact ⟨by decide, by decide⟩

/-- Claim C8 counterexample: the company extractor's merged stream does
not preserve left-to-right span order when a dictionary company name
precedes an email address, because all email matches are emitted before
all dictionary matches. -/
theorem C8_counterexample : ¬ SortedStarts (company_extractor "Ozon ivan@acme.io") := by
  decide

/-! ### Provenance of pattern results -/

theorem pout_mono {p : P α} {Q R : α → Prop} (h : POut p Q)
    (himp : ∀ a, Q a → R a) : POut p R :=
  fun ts r hr => himp _ (h ts r hr)

theorem pout_pmap {p : P α} {f : α → β} {Q : β → Prop}
    (h : POut p (fun a => Q (f a))) : POut (pmap f p) Q := by
  intro ts r hr
  simp only [pmap, List.mem_map] at hr
  obtain ⟨s, hs, rfl⟩ := hr
  exact h ts s hs

theorem pout_pseq {p : P α} {q : P β} {Qa : α → Prop} {Qb : β → Prop}
    (hp : POut p Qa) (hq : POut q Qb) :
    POut (pseq p q) (fun ab => Qa ab.1 ∧ Qb ab.2) := by
  intro ts r hr
  simp only [pseq, List.mem_flatMap, List.mem_map] at hr
  obtain ⟨s, hs, u, hu, rfl⟩ := hr
  exact ⟨hp _ _ hs, hq _ _ hu⟩

theorem pout_por {p q : P α} {Q : α → Prop} (hp : POut p Q) (hq : POut q Q) :
    POut (por p q) Q := by
  intro ts r hr
  simp only [por, List.mem_append] at hr
  rcases hr with h | h
  exacts [hp _ _ h, hq _ _ h]

theorem pout_popt {p : P α} {Q : α → Prop} (hp : POut p Q) :
    POut (popt p) (fun o => ∀ a, o = some a → Q a) := by
  intro ts r hr
  simp only [popt, List.mem_append, List.mem_map, List.mem_singleton] at hr
  rcases hr with ⟨s, hs, rfl⟩ | rfl
  · intro a ha
    cases ha
    exact hp _ _ hs
  · intro a ha
    exact absurd ha (by simp)

theorem pout_prepeat {p : P α} {Q : α → Prop} (hp : POut p Q) :
    ∀ n, POut (prepeat p n) (fun l => ∀ a ∈ l, Q a) := by
  intro n
  induction n with
  | zero =>
    intro ts r hr
    simp only [prepeat, List.mem_singleton] at hr
    subst hr
    intro a ha
    exact absurd ha (by simp)
  | succ n ih =>
    intro ts r hr
    simp only [prepeat, List.mem_append, List.mem_flatMap, List.mem_map,
      List.mem_singleton] at hr
    rcases hr with ⟨s, hs, u, hu, rfl⟩ | rfl
    · intro a ha
      rcases List.mem_cons.1 ha with rfl | ha
      · exact hp _ _ hs
      · exact ih _ _ hu _ ha
    · intro a ha
      exact absurd ha (by simp)

theorem pout_ppipeline (es : List (String × α)) :
    POut (ppipeline es) (fun v => v ∈ es.map Prod.snd) := by
  intro ts r hr
  simp only [ppipeline, List.mem_filterMap] at hr
  obtain ⟨e, he, hsome⟩ := hr
  split at hsome
  · cases hsome
    exact List.mem_map.2 ⟨e, he, rfl⟩
  · exact absurd hsome (by simp)

theorem pout_true (p : P α) : POut p (fun _ => True) :=
  fun _ _ _ => trivial

/-- Every value of the SCALES dictionary is the thousand or the million
multiplier. -/
theorem scale_values : ∀ v ∈ SCALES.map Prod.snd, v = K ∨ v = M := by decide

/-- Every value of the CURRENCIES dictionary is one of the four currency
codes. -/
theorem currency_values :
    ∀ c ∈ CURRENCIES.map Prod.snd, c = RUB ∨ c = USD ∨ c = EUR ∨ c = GBP := by decide

/-- Every value of the TAXES dictionary is net or gross. -/
theorem tax_values : ∀ t ∈ TAXES.map Prod.snd, t = NET ∨ t = GROSS := by decide

theorem pout_ATTR : POut ATTR AttrOK := by
  unfold ATTR
  apply pout_por
  · exact pout_pmap (pout_mono (pout_ppipeline SCALES) (fun v hv => scale_values v hv))
  apply pout_por
  · exact pout_pmap (pout_mono (pout_ppipeline CURRENCIES) (fun c hc => currency_values c hc))
  apply pout_por
  · exact pout_pmap (pout_mono (pout_true pPER) (fun _ _ => trivial))
  · exact pout_pmap (pout_mono (pout_ppipeline TAXES) (fun t ht => tax_values t ht))

/-- Folding well-formed attributes into a well-formed bound keeps the
bound well-formed. -/
theorem foldl_applyAttr_BOK :
    ∀ (attrs : List Attr), (∀ a ∈ attrs, AttrOK a) →
      ∀ b : BoundF, BOK b → BOK (attrs.foldl applyAttr b) := by
  intro attrs
  induction attrs with
  | nil => exact fun _ b hb => hb
  | cons a l ih =>
    intro h b hb
    simp only [List.foldl_cons]
    apply ih (fun x hx => h x (List.mem_cons_of_mem _ hx))
    have ha := h a (List.mem_cons_self _ _)
    cases a with
    | scale v => exact ⟨fun c hc => hb.1 c hc, fun t ht => hb.2 t ht⟩
    | currency c =>
      refine ⟨fun c2 hc2 => ?_, fun t ht => hb.2 t ht⟩
      cases hc2
      exact ha
    | per => exact hb
    | tax t =>
      refine ⟨fun c hc => hb.1 c hc, fun t2 ht2 => ?_⟩
      cases ht2
      exact ha

theorem pout_BOUND : POut BOUND BOK := by
  unfold BOUND
  apply pout_pmap
  have h1 :
      POut (popt CURRENCY)
        (fun o => ∀ c, o = some c → c = RUB ∨ c = USD ∨ c = EUR ∨ c = GBP) :=
    pout_popt (pout_mono (pout_ppipeline CURRENCIES) (fun c hc => currency_values c hc))
  have h3 : POut (prepeat ATTR 4) (fun l => ∀ a ∈ l, AttrOK a) :=
    pout_prepeat pout_ATTR 4
  have h := pout_pseq h1 (pout_pseq (pout_true AMOUNT) h3)
  refine pout_mono h ?_
  rintro ⟨cur, amt, attrs⟩ ⟨hcur, _, hattrs⟩
  exact foldl_applyAttr_BOK attrs hattrs _ ⟨hcur, fun t ht => absurd ht (by simp)⟩

theorem pout_VILKA : POut VILKA (fun r => BOK r.1 ∧ BOK r.2) := by
  unfold VILKA
  apply pout_por
  · apply pout_pmap
    have h := pout_pseq (pout_true OT)
      (pout_pseq pout_BOUND (pout_pseq (pout_true DO) pout_BOUND))
    refine pout_mono h ?_
    rintro ⟨u, b1, v, b2⟩ ⟨_, h1, _, h2⟩
    exact ⟨h1, h2⟩
  · apply pout_pmap
    have h := pout_pseq pout_BOUND (pout_pseq (pout_true DASH) pout_BOUND)
    refine pout_mono h ?_
    rintro ⟨b1, v, b2⟩ ⟨h1, _, h2⟩
    exact ⟨h1, h2⟩

theorem pout_LOCATION :
    POut LOCATION (fun l =>
      (∃ c, l = ⟨some c, none, none⟩) ∨
      (∃ s, l = ⟨none, some s, none⟩) ∨
      l = ⟨none, none, some true⟩) := by
  unfold LOCATION
  apply pout_por
  · intro ts r hr
    simp only [pmap, List.mem_map] at hr
    obtain ⟨s, hs, rfl⟩ := hr
    exact Or.inl ⟨s.2, rfl⟩
  apply pout_por
  · intro ts r hr
    simp only [pmap, List.mem_map] at hr
    obtain ⟨s, hs, rfl⟩ := hr
    exact Or.inr (Or.inl ⟨s.2, rfl⟩)
  · intro ts r hr
    simp only [pmap, List.mem_map] at hr
    obtain ⟨s, hs, rfl⟩ := hr
    exact Or.inr (Or.inr rfl)

/-! ### Provenance through the findall engine -/

theorem foldl_pickStep_mem :
    ∀ (l : List (Nat × α)) (acc : Option (Nat × α)) (r : Nat × α),
      l.foldl pickStep acc = some r → r ∈ l ∨ acc = some r := by
  intro l
  induction l with
  | nil => exact fun acc r h => Or.inr h
  | cons a l ih =>
    intro acc r h
    simp only [List.foldl_cons] at h
    rcases ih _ _ h with hm | hacc
    · exact Or.inl (List.mem_cons_of_mem _ hm)
    · cases acc with
      | none =>
        cases hacc
        exact Or.inl (List.mem_cons_self _ _)
      | some b =>
        simp only [pickStep] at hacc
        split at hacc
        · cases hacc
          exact Or.inl (List.mem_cons_self _ _)
        · exact Or.inr hacc

theorem pickBest_mem {rs : List (Nat × α)} {r : Nat × α}
    (h : pickBest rs = some r) : r ∈ rs ∧ 0 < r.1 := by
  unfold pickBest at h
  rcases foldl_pickStep_mem _ _ _ h with hm | habs
  · have := List.mem_filter.1 hm
    exact ⟨this.1, by simpa using this.2⟩
  · exact absurd habs (by simp)

theorem findallAux_out {p : P α} {Q : α → Prop} (hp : POut p Q) :
    ∀ fuel ts, ∀ m ∈ findallAux p fuel ts, Q m.2.2 := by
  intro fuel
  induction fuel with
  | zero =>
    intro ts m hm
    simp [findallAux] at hm
  | succ fuel ih =>
    intro ts m hm
    cases ts with
    | nil => simp [findallAux] at hm
    | cons t rest =>
      rw [findallAux] at hm
      split at hm
      next n a heq =>
        rcases List.mem_cons.1 hm with rfl | hm2
        · exact hp _ (n, a) (pickBest_mem heq).1
        · exact ih _ _ hm2
      next heq => exact ih _ _ hm

theorem findall_out {p : P α} {Q : α → Prop} (hp : POut p Q)
    {ts : List Token} {m : Nat × Nat × α} (hm : m ∈ findall p ts) : Q m.2.2 :=
  findallAux_out hp _ _ _ hm

/-! ### Decimal order facts -/

theorem Dec.le_iff (a b : Dec) :
    a ≤ b ↔ a.num * 10 ^ b.exp ≤ b.num * 10 ^ a.exp := Iff.rfl

theorem Dec.lt_iff (a b : Dec) :
    a < b ↔ a.num * 10 ^ b.exp < b.num * 10 ^ a.exp := Iff.rfl

theorem Dec.lt_of_not_le {a b : Dec} (h : ¬ b ≤ a) : a < b := by
  rw [Dec.le_iff] at h
  rw [Dec.lt_iff]
  omega

/-! ### Facts about the validity filter and normalization -/

/-- What passing the validity filter means: the bounds are strictly
ordered and lie in the plausibility window of the resolved currency. -/
theorem is_ok_spec {v : NormVilka} (h : is_ok_vilka v = some true) :
    v.min < v.max ∧
    ((v.currency = RUB ∧ 20000 ≤ v.min ∧ v.max ≤ 600000) ∨
     ((v.currency = USD ∨ v.currency = EUR ∨ v.currency = GBP) ∧
       1000 ≤ v.min ∧ v.max ≤ 10000)) := by
  unfold is_ok_vilka at h
  split_ifs at h with h1 h2 h3
  · exact absurd h (by simp)
  · exact ⟨Dec.lt_of_not_le h1, Or.inl ⟨h2, of_decide_eq_true (Option.some.inj h)⟩⟩
  · exact ⟨Dec.lt_of_not_le h1, Or.inr ⟨h3, of_decide_eq_true (Option.some.inj h)⟩⟩

theorem spec_normalize_tax (b1 b2 : BoundF) :
    (spec_normalize b1 b2).tax = (b1.tax.orElse (fun _ => b2.tax)).getD NET := by
  unfold spec_normalize
  cases hs : b1.scale.orElse fun _ => b2.scale
  · simp only [hs]
    split <;> rfl
  · simp only [hs]

theorem spec_normalize_currency (b1 b2 : BoundF) :
    (spec_normalize b1 b2).currency =
      (b1.currency.orElse (fun _ => b2.currency)).getD RUB := by
  unfold spec_normalize
  cases hs : b1.scale.orElse fun _ => b2.scale
  · simp only [hs]
    split <;> rfl
  · simp only [hs]

/-- The tax of a normalized range built from well-formed bounds is net or
gross. -/
theorem norm_vilka_tax (b1 b2 : BoundF) (h1 : BOK b1) (h2 : BOK b2) :
    (norm_vilka (b1, b2)).tax = NET ∨ (norm_vilka (b1, b2)).tax = GROSS := by
  rw [norm_vilka_eq_spec, spec_normalize_tax]
  rcases hb1 : b1.tax with _ | t
  · rcases hb2 : b2.tax with _ | t2
    · exact Or.inl rfl
    · exact h2.2 t2 hb2
  · exact h1.2 t hb1

/-- The currency of a normalized range built from well-formed bounds is
one of the four currency codes. -/
theorem norm_vilka_currency (b1 b2 : BoundF) (h1 : BOK b1) (h2 : BOK b2) :
    (norm_vilka (b1, b2)).currency = RUB ∨ (norm_vilka (b1, b2)).currency = USD ∨
    (norm_vilka (b1, b2)).currency = EUR ∨ (norm_vilka (b1, b2)).currency = GBP := by
  rw [norm_vilka_eq_spec, spec_normalize_currency]
  rcases hb1 : b1.currency with _ | c
  · rcases hb2 : b2.currency with _ | c2
    · exact Or.inl rfl
    · exact h2.1 c2 hb2
  · exact h1.1 c hb1

/-! ### The remaining claims -/

/-- Claim C1: every salary-range match the extractor emits carries a
normalized value with min strictly below max, a currency among the four
codes, a tax basis of net or gross, and bounds inside the currency's
plausibility window. -/
theorem C1_salary_range_invariant (text : String) (m : Match)
    (hm : m ∈ vilka_extractor text) :
    ∃ v : NormVilka, m.value = FactValue.vilka v ∧
      v.min < v.max ∧
      (v.currency = RUB ∨ v.currency = USD ∨ v.currency = EUR ∨ v.currency = GBP) ∧
      (v.tax = NET ∨ v.tax = GROSS) ∧
      (v.currency = RUB → 20000 ≤ v.min ∧ v.max ≤ 600000) ∧
      ((v.currency = USD ∨ v.currency = EUR ∨ v.currency = GBP) →
        1000 ≤ v.min ∧ v.max ≤ 10000) := by
  unfold vilka_extractor at hm
  simp only [List.mem_map, List.mem_filter] at hm
  obtain ⟨r, ⟨hrmem, hrok⟩, rfl⟩ := hm
  have hok : is_ok_vilka (norm_vilka r.2.2) = some true := of_decide_eq_true hrok
  have hbok : BOK r.2.2.1 ∧ BOK r.2.2.2 := findall_out pout_VILKA hrmem
  have hspec := is_ok_spec hok
  have hcur := norm_vilka_currency r.2.2.1 r.2.2.2 hbok.1 hbok.2
  have htax := norm_vilka_tax r.2.2.1 r.2.2.2 hbok.1 hbok.2
  refine ⟨norm_vilka r.2.2, rfl, hspec.1, hcur, htax, ?_, ?_⟩
  · intro hrub
    rcases hspec.2 with ⟨_, hw⟩ | ⟨hother, _⟩
    · exact hw
    · rcases hother with h | h | h <;> rw [hrub] at h <;> exact absurd h (by decide)
  · intro hother
    rcases hspec.2 with ⟨hrub, _⟩ | ⟨_, hw⟩
    · rcases hother with h | h | h <;> rw [hrub] at h <;> exact absurd h (by decide)
    · exact hw

/-- Claim C1 witness at a concrete emitted match. -/
theorem C1_witness :
    ∃ m ∈ vilka_extractor "от 60К до 300К грязными",
      ∃ v : NormVilka, m.value = FactValue.vilka v ∧
        v.min < v.max ∧
        (v.currency = RUB ∨ v.currency = USD ∨ v.currency = EUR ∨ v.currency = GBP) ∧
        (v.tax = NET ∨ v.tax = GROSS) ∧
        (v.currency = RUB → 20000 ≤ v.min ∧ v.max ≤ 600000) ∧
        ((v.currency = USD ∨ v.currency = EUR ∨ v.currency = GBP) →
          1000 ≤ v.min ∧ v.max ≤ 10000) :=
  ⟨⟨0, 23, constVILKA, FactValue.vilka ⟨60000, 300000, RUB, GROSS⟩⟩, by decide,
    C1_salary_range_invariant "от 60К до 300К грязными"
      ⟨0, 23, constVILKA, FactValue.vilka ⟨60000, 300000, RUB, GROSS⟩⟩ (by decide)⟩

/-- Claim C6: the validity filter never reaches the undefined-window
state on any candidate the grammar can produce (its result is always
defined), and extraction of the empty text returns the empty stream. -/
theorem C6_no_crash (text : String) (r : Nat × Nat × VilkaRaw)
    (hr : r ∈ findall VILKA (tokenize text)) :
    (is_ok_vilka (norm_vilka r.2.2)).isSome ∧ extractor "" = [] := by
  refine ⟨?_, by decide⟩
  have hbok : BOK r.2.2.1 ∧ BOK r.2.2.2 := findall_out pout_VILKA hr
  have hcur := norm_vilka_currency r.2.2.1 r.2.2.2 hbok.1 hbok.2
  unfold is_ok_vilka
  split_ifs with h1 h2 h3
  · rfl
  · rfl
  · rfl
  · rcases hcur with h | h | h | h
    exacts [absurd h h2, absurd (Or.inl h) h3, absurd (Or.inr (Or.inl h)) h3,
      absurd (Or.inr (Or.inr h)) h3]

/-- Claim C6 witness at a concrete grammar candidate. -/
theorem C6_witness :
    ((0, 23, (⟨⟨60, 0⟩, none, some 1000, none⟩ : BoundF),
        (⟨⟨300, 0⟩, none, some 1000, some GROSS⟩ : BoundF)) :
          Nat × Nat × VilkaRaw) ∈
        findall VILKA (tokenize "от 60К до 300К грязными") ∧
    ((is_ok_vilka (norm_vilka
        (⟨⟨60, 0⟩, none, some 1000, none⟩,
         ⟨⟨300, 0⟩, none, some 1000, some GROSS⟩))).isSome ∧
      extractor "" = []) :=
  ⟨by decide, C6_no_crash "от 60К до 300К грязными"
    (0, 23, ⟨⟨60, 0⟩, none, some 1000, none⟩,
      ⟨⟨300, 0⟩, none, some 1000, some GROSS⟩) (by decide)⟩

/-- Claim C9: a value that passed the validity filter never satisfies the
implicit-thousand condition, so re-applying the scale and
implicit-thousand logic to its bounds is the identity. -/
theorem C9_normalization_idempotent (v : NormVilka)
    (h : is_ok_vilka v = some true) :
    ¬ (20 ≤ v.min ∧ v.min ≤ 600) ∧
    norm_vilka (⟨v.min, some v.currency, none, some v.tax⟩,
                ⟨v.max, some v.currency, none, some v.tax⟩) = v := by
  have hspec := is_ok_spec h
  have hmin : (20000 : Dec) ≤ v.min ∨ (1000 : Dec) ≤ v.min := by
    rcases hspec.2 with ⟨_, hw, _⟩ | ⟨_, hw, _⟩
    exacts [Or.inl hw, Or.inr hw]
  have hp : 0 < 10 ^ v.min.exp := Nat.pos_pow_of_pos _ (by norm_num)
  have hnot : ¬ (20 ≤ v.min ∧ v.min ≤ 600) := by
    rintro ⟨ha, hb⟩
    have hb2 : v.min.num * 10 ^ 0 ≤ 600 * 10 ^ v.min.exp := hb
    simp only [pow_zero] at hb2
    rcases hmin with hw | hw
    · have hw2 : 20000 * 10 ^ v.min.exp ≤ v.min.num * 10 ^ 0 := hw
      simp only [pow_zero] at hw2
      omega
    · have hw2 : 1000 * 10 ^ v.min.exp ≤ v.min.num * 10 ^ 0 := hw
      simp only [pow_zero] at hw2
      omega
  refine ⟨hnot, ?_⟩
  have hred :
      norm_vilka (⟨v.min, some v.currency, none, some v.tax⟩,
                  ⟨v.max, some v.currency, none, some v.tax⟩) =
        if 20 ≤ v.min ∧ v.min ≤ 600
        then ⟨v.min * K, v.max * K, v.currency, v.tax⟩
        else ⟨v.min, v.max, v.currency, v.tax⟩ := rfl
  rw [hred, if_neg hnot]

/-- Claim C9 witness at a concrete valid range. -/
theorem C9_witness :
    ∃ v : NormVilka, is_ok_vilka v = some true ∧
      (¬ (20 ≤ v.min ∧ v.min ≤ 600) ∧
       norm_vilka (⟨v.min, some v.currency, none, some v.tax⟩,
                   ⟨v.max, some v.currency, none, some v.tax⟩) = v) :=
  ⟨⟨60000, 300000, RUB, GROSS⟩, by decide,
    C9_normalization_idempotent _ (by decide)⟩

/-- Claim C10: every Location match has exactly one of the city, metro
and remote fields set, and a set remote field holds the constant true. -/
theorem C10_location_exactly_one (text : String) (m : Match)
    (hm : m ∈ location_extractor text) :
    ∃ l : LocationF, m.value = FactValue.location l ∧
      ((∃ c, l = ⟨some c, none, none⟩) ∨
       (∃ s, l = ⟨none, some s, none⟩) ∨
       l = ⟨none, none, some true⟩) := by
  unfold location_extractor at hm
  simp only [List.mem_map] at hm
  obtain ⟨r, hr, rfl⟩ := hm
  exact ⟨r.2.2, rfl, findall_out pout_LOCATION hr⟩

/-! ### Consumption bounds for patterns -/

theorem pwf_ptoken (f : Token → Option α) : PWf (ptoken f) := by
  intro ts r hr
  cases ts with
  | nil => simp [ptoken] at hr
  | cons t rest =>
    cases h : f t with
    | none => simp [ptoken, h] at hr
    | some a =>
      simp only [ptoken, h, List.mem_singleton] at hr
      subst hr
      simp

theorem pwf_pmap {p : P α} (f : α → β) (h : PWf p) : PWf (pmap f p) := by
  intro ts r hr
  simp only [pmap, List.mem_map] at hr
  obtain ⟨s, hs, rfl⟩ := hr
  exact h _ _ hs

theorem pwf_pseq {p : P α} {q : P β} (hp : PWf p) (hq : PWf q) : PWf (pseq p q) := by
  intro ts r hr
  simp only [pseq, List.mem_flatMap, List.mem_map] at hr
  obtain ⟨s, hs, u, hu, rfl⟩ := hr
  have h1 := hp _ _ hs
  have h2 := hq _ _ hu
  rw [List.length_drop] at h2
  simp only []
  omega

theorem pwf_por {p q : P α} (hp : PWf p) (hq : PWf q) : PWf (por p q) := by
  intro ts r hr
  simp only [por, List.mem_append] at hr
  rcases hr with h | h
  exacts [hp _ _ h, hq _ _ h]

theorem pwf_popt {p : P α} (hp : PWf p) : PWf (popt p) := by
  intro ts r hr
  simp only [popt, List.mem_append, List.mem_map, List.mem_singleton] at hr
  rcases hr with ⟨s, hs, rfl⟩ | rfl
  · exact hp _ _ hs
  · simp

theorem pwf_prepeat {p : P α} (hp : PWf p) : ∀ n, PWf (prepeat p n) := by
  intro n
  induction n with
  | zero =>
    intro ts r hr
    simp only [prepeat, List.mem_singleton] at hr
    subst hr
    simp
  | succ n ih =>
    intro ts r hr
    simp only [prepeat, List.mem_append, List.mem_flatMap, List.mem_map,
      List.mem_singleton] at hr
    rcases hr with ⟨s, hs, u, hu, rfl⟩ | rfl
    · have h1 := hp _ _ hs
      have h2 := ih _ _ hu
      rw [List.length_drop] at h2
      simp only []
      omega
    · simp

theorem pwf_ppipeline (es : List (String × α)) : PWf (ppipeline es) := by
  intro ts r hr
  simp only [ppipeline, List.mem_filterMap] at hr
  obtain ⟨e, he, hsome⟩ := hr
  split at hsome
  · cases hsome
    next hcond =>
      have hlen := congrArg List.length hcond.2
      simp only [List.length_map, List.length_take] at hlen
      show (List.map _ (tokenize e.1)).length ≤ ts.length
      simp only [List.length_map]
      omega
  · exact absurd hsome (by simp)

theorem pwf_INT : PWf INT := by
  unfold INT
  exact pwf_por (pwf_pmap _ (pwf_ptoken _))
    (pwf_pmap _ (pwf_pseq (pwf_pseq (pwf_ptoken _) (pwf_popt (pwf_ptoken _)))
      (pwf_ptoken _)))

theorem pwf_FLOAT : PWf FLOAT := by
  unfold FLOAT
  exact pwf_pmap _ (pwf_pseq (pwf_pseq (pwf_ptoken _) (pwf_ptoken _)) (pwf_ptoken _))

theorem pwf_AMOUNT : PWf AMOUNT := by
  unfold AMOUNT NUM
  exact pwf_pmap _ (pwf_pseq (pwf_pseq (pwf_popt (pwf_ptoken _))
    (pwf_por pwf_INT pwf_FLOAT)) (pwf_popt (pwf_ptoken _)))

theorem pwf_ATTR : PWf ATTR := by
  unfold ATTR
  exact pwf_por (pwf_pmap _ (pwf_ppipeline _))
    (pwf_por (pwf_pmap _ (pwf_ppipeline _))
      (pwf_por (pwf_pmap _ (pwf_ppipeline _)) (pwf_pmap _ (pwf_ppipeline _))))

theorem pwf_BOUND : PWf BOUND := by
  unfold BOUND
  exact pwf_pmap _ (pwf_pseq (pwf_popt (pwf_ppipeline _))
    (pwf_pseq pwf_AMOUNT (pwf_prepeat pwf_ATTR 4)))

theorem pwf_VILKA : PWf VILKA := by
  unfold VILKA
  exact pwf_por
    (pwf_pmap _ (pwf_pseq (pwf_ptoken _)
      (pwf_pseq pwf_BOUND (pwf_pseq (pwf_ptoken _) pwf_BOUND))))
    (pwf_pmap _ (pwf_pseq pwf_BOUND (pwf_pseq (pwf_ptoken _) pwf_BOUND)))

theorem pwf_LOCATION : PWf LOCATION := by
  unfold LOCATION
  exact pwf_por (pwf_pmap _ (pwf_ppipeline _))
    (pwf_por (pwf_pmap _ (pwf_ppipeline _)) (pwf_pmap _ (pwf_ppipeline _)))

theorem pwf_POSITION : PWf POSITION := by
  unfold POSITION
  exact pwf_por (pwf_pmap _ (pwf_ppipeline _)) (pwf_pmap _ (pwf_ppipeline _))

theorem pwf_COMPANY : PWf COMPANY := by
  unfold COMPANY
  exact pwf_ppipeline _

/-! ### Token order produced by the tokenizer -/

theorem tok_sound_cons {i j : Nat} {tok : Token} {l : List Token}
    (hl : (∀ t ∈ l, j ≤ t.start ∧ t.start < t.stop) ∧
      l.Pairwise (fun a b => a.stop ≤ b.start))
    (hstart : tok.start = i) (hstop : tok.stop = j) (hij : i < j) :
    (∀ t ∈ tok :: l, i ≤ t.start ∧ t.start < t.stop) ∧
    (tok :: l).Pairwise (fun a b => a.stop ≤ b.start) := by
  constructor
  · intro t ht
    rcases List.mem_cons.1 ht with rfl | ht
    · constructor
      · omega
      · omega
    · have h := hl.1 t ht
      constructor
      · omega
      · exact h.2
  · refine List.pairwise_cons.2 ⟨fun t ht => ?_, hl.2⟩
    have h := hl.1 t ht
    omega

theorem tokenizeAux_sound :
    ∀ (fuel i : Nat) (cs : List Char),
      (∀ t ∈ tokenizeAux fuel i cs, i ≤ t.start ∧ t.start < t.stop) ∧
      (tokenizeAux fuel i cs).Pairwise (fun a b => a.stop ≤ b.start) := by
  intro fuel
  induction fuel with
  | zero =>
    intro i cs
    simp [tokenizeAux]
  | succ fuel ih =>
    intro i cs
    cases cs with
    | nil => simp [tokenizeAux]
    | cons c cs =>
      rw [tokenizeAux]
      split_ifs with h1 h2 h3 h4
      · have h := ih (i+1) cs
        refine ⟨fun t ht => ?_, h.2⟩
        have := h.1 t ht
        exact ⟨by omega, this.2⟩
      · exact tok_sound_cons (ih _ _) rfl rfl (by omega)
      · exact tok_sound_cons (ih _ _) rfl rfl (by omega)
      · exact tok_sound_cons (ih _ _) rfl rfl (by omega)
      · exact tok_sound_cons (ih _ _) rfl rfl (by omega)

/-- Tokens of a text have positive-width spans and appear in
left-to-right order. -/
theorem tokenize_sound (text : String) :
    (∀ t ∈ tokenize text, t.start < t.stop) ∧
    (tokenize text).Pairwise (fun a b => a.stop ≤ b.start) := by
  have h := tokenizeAux_sound text.data.length 0 text.data
  exact ⟨fun t ht => (h.1 t ht).2, h.2⟩

/-! ### Match order produced by the findall engine -/

theorem findallAux_spans {p : P α} (hwf : PWf p) :
    ∀ (fuel : Nat) (ts : List Token) (b : Nat),
      (∀ t ∈ ts, b ≤ t.start ∧ t.start < t.stop) →
      ts.Pairwise (fun a b => a.stop ≤ b.start) →
      (∀ m ∈ findallAux p fuel ts, b ≤ m.1 ∧ m.1 < m.2.1) ∧
      (findallAux p fuel ts).Pairwise (fun x y => x.2.1 ≤ y.1) := by
  intro fuel
  induction fuel with
  | zero =>
    intro ts b hlb hord
    simp [findallAux]
  | succ fuel ih =>
    intro ts b hlb hord
    cases ts with
    | nil => simp [findallAux]
    | cons t rest =>
      rw [findallAux]
      split
      next n a heq =>
        obtain ⟨hmem, hn⟩ := pickBest_mem heq
        have hnle : n ≤ (t :: rest).length := hwf _ _ hmem
        have hidx : n - 1 < (t :: rest).length := by omega
        have hstop : spanStop (t :: rest) n = (t :: rest)[n-1].stop := by
          unfold spanStop
          rw [List.getElem?_eq_getElem hidx]
        have helem := (t :: rest)[n-1]
        have hmem1 : (t :: rest)[n-1] ∈ t :: rest := List.getElem_mem hidx
        have hpos1 : b ≤ (t :: rest)[n-1].start ∧
            (t :: rest)[n-1].start < (t :: rest)[n-1].stop := hlb _ hmem1
        have hts : t.start < spanStop (t :: rest) n := by
          rw [hstop]
          rcases Nat.eq_or_lt_of_le hn with h1 | h1
          · subst h1
            exact (hlb t (by simp)).2
          · have hrel := List.pairwise_iff_getElem.1 hord 0 (n-1)
              (by simp) hidx (by omega)
            have h0 : (t :: rest)[0] = t := rfl
            rw [h0] at hrel
            have h2 := (hlb t (by simp)).2
            omega
        have hlb2 : ∀ t2 ∈ (t :: rest).drop n,
            spanStop (t :: rest) n ≤ t2.start ∧ t2.start < t2.stop := by
          intro t2 ht2
          obtain ⟨k, hk, hkeq⟩ := List.mem_iff_getElem.1 ht2
          have hk2 : n + k < (t :: rest).length := by
            rw [List.length_drop] at hk
            omega
          have hdrop : ((t :: rest).drop n)[k] = (t :: rest)[n + k] :=
            List.getElem_drop _
          have hrel := List.pairwise_iff_getElem.1 hord (n-1) (n+k)
            hidx hk2 (by omega)
          have hmem2 : (t :: rest)[n+k] ∈ t :: rest := List.getElem_mem hk2
          have hpos2 := hlb _ hmem2
          rw [← hkeq, hdrop]
          rw [hstop]
          exact ⟨hrel, hpos2.2⟩
        have hord2 : ((t :: rest).drop n).Pairwise (fun a b => a.stop ≤ b.start) :=
          hord.sublist (List.drop_sublist _ _)
        have hrec := ih ((t :: rest).drop n) (spanStop (t :: rest) n) hlb2 hord2
        constructor
        · intro m hm
          rcases List.mem_cons.1 hm with rfl | hm2
          · exact ⟨(hlb t (by simp)).1, hts⟩
          · have := (hrec.1 m hm2).1
            have hb := (hlb t (by simp)).1
            refine ⟨by omega, (hrec.1 m hm2).2⟩
        · refine List.pairwise_cons.2 ⟨fun m hm => ?_, hrec.2⟩
          exact (hrec.1 m hm).1
      next heq =>
        have hlb2 : ∀ t2 ∈ rest, b ≤ t2.start ∧ t2.start < t2.stop :=
          fun t2 ht2 => hlb t2 (List.mem_cons_of_mem _ ht2)
        exact ih rest b hlb2 (List.pairwise_cons.1 hord).2

/-! ### Email match order -/

theorem findEmailsAux_spans :
    ∀ (fuel i : Nat) (cs : List Char),
      (∀ sp ∈ findEmailsAux fuel i cs, i ≤ sp.1 ∧ sp.1 < sp.2) ∧
      (findEmailsAux fuel i cs).Pairwise (fun x y => x.2 ≤ y.1) := by
  intro fuel
  induction fuel with
  | zero =>
    intro i cs
    simp [findEmailsAux]
  | succ fuel ih =>
    intro i cs
    cases cs with
    | nil => simp [findEmailsAux]
    | cons c cs =>
      rw [findEmailsAux]
      split
      next n heq =>
        split_ifs with hn
        · have hrec := ih (i + n) ((c :: cs).drop n)
          constructor
          · intro sp hsp
            rcases List.mem_cons.1 hsp with rfl | hsp2
            · exact ⟨Nat.le_refl i, by omega⟩
            · have := hrec.1 sp hsp2
              exact ⟨by omega, this.2⟩
          · refine List.pairwise_cons.2 ⟨fun sp hsp => ?_, hrec.2⟩
            exact (hrec.1 sp hsp).1
        · have hrec := ih (i + 1) cs
          refine ⟨fun sp hsp => ?_, hrec.2⟩
          have := hrec.1 sp hsp
          exact ⟨by omega, this.2⟩
      next heq =>
        have hrec := ih (i + 1) cs
        refine ⟨fun sp hsp => ?_, hrec.2⟩
        have := hrec.1 sp hsp
        exact ⟨by omega, this.2⟩

/-- Spans of find_emails are positive-width and ordered left to right. -/
theorem find_emails_spans (text : String) :
    (∀ sp ∈ find_emails text, sp.1 < sp.2) ∧
    (find_emails text).Pairwise (fun x y => x.2 ≤ y.1) := by
  have h := findEmailsAux_spans text.data.length 0 text.data
  exact ⟨fun sp hsp => (h.1 sp hsp).2, h.2⟩

/-! ### Order of the matches each extractor emits -/

/-- Matches built from a sublist of a findall run are ordered: spans are
positive-width and successive stops never exceed later starts. -/
theorem mapped_matches_ord {p : P α} (hwf : PWf p) (text : String)
    {l : List (Nat × Nat × α)} (hsub : l.Sublist (findall p (tokenize text)))
    (f : Nat × Nat × α → Match)
    (hf : ∀ r, (f r).start = r.1 ∧ (f r).stop = r.2.1) :
    (∀ m ∈ l.map f, m.start < m.stop) ∧
    (l.map f).Pairwise (fun a b => a.stop ≤ b.start) := by
  have htok := tokenize_sound text
  have hbase := findallAux_spans hwf (tokenize text).length (tokenize text) 0
    (fun t ht => ⟨Nat.zero_le _, htok.1 t ht⟩) htok.2
  constructor
  · intro m hm
    obtain ⟨r, hr, rfl⟩ := List.mem_map.1 hm
    have hrm : r ∈ findall p (tokenize text) := hsub.subset hr
    have := (hbase.1 r hrm).2
    rw [(hf r).1, (hf r).2]
    exact this
  · rw [List.pairwise_map]
    have hl : l.Pairwise (fun x y => x.2.1 ≤ y.1) := hbase.2.sublist hsub
    exact hl.imp (fun hxy => by rw [(hf _).1, (hf _).2]; exact hxy)

theorem vilka_extractor_ord (text : String) :
    (∀ m ∈ vilka_extractor text, m.start < m.stop) ∧
    (vilka_extractor text).Pairwise (fun a b => a.stop ≤ b.start) := by
  unfold vilka_extractor
  exact mapped_matches_ord pwf_VILKA text (List.filter_sublist _) _ (fun r => ⟨rfl, rfl⟩)

theorem location_extractor_ord (text : String) :
    (∀ m ∈ location_extractor text, m.start < m.stop) ∧
    (location_extractor text).Pairwise (fun a b => a.stop ≤ b.start) := by
  unfold location_extractor
  exact mapped_matches_ord pwf_LOCATION text (List.Sublist.refl _) _ (fun r => ⟨rfl, rfl⟩)

theorem position_extractor_ord (text : String) :
    (∀ m ∈ position_extractor text, m.start < m.stop) ∧
    (position_extractor text).Pairwise (fun a b => a.stop ≤ b.start) := by
  unfold position_extractor
  exact mapped_matches_ord pwf_POSITION text (List.Sublist.refl _) _ (fun r => ⟨rfl, rfl⟩)

theorem company_dict_matches_ord (text : String) :
    (∀ m ∈ company_dict_matches text, m.start < m.stop) ∧
    (company_dict_matches text).Pairwise (fun a b => a.stop ≤ b.start) := by
  unfold company_dict_matches
  exact mapped_matches_ord pwf_COMPANY text (List.Sublist.refl _) _ (fun r => ⟨rfl, rfl⟩)

theorem company_email_matches_ord (text : String) :
    (∀ m ∈ company_email_matches text, m.start < m.stop) ∧
    (company_email_matches text).Pairwise (fun a b => a.stop ≤ b.start) := by
  unfold company_email_matches
  have hbase := find_emails_spans text
  have hsub : ((find_emails text).filter
      (fun se => email_span_domain text se ∉ GENERIC_EMAIL_DOMAINS)).Sublist
        (find_emails text) := List.filter_sublist _
  constructor
  · intro m hm
    obtain ⟨sp, hsp, rfl⟩ := List.mem_map.1 hm
    exact hbase.1 sp (hsub.subset hsp)
  · rw [List.pairwise_map]
    have hl := hbase.2.sublist hsub
    exact hl.imp (fun hxy => hxy)

/-! ### The amended non-overlap and order claims -/

/-- Claim C4 amended: within each grammar-based extractor's stream, and
within each of the company extractor's two source streams taken
separately, no two spans overlap; the company extractor's merged stream
can overlap (see the counterexample). -/
theorem C4_amended_no_overlap (text : String) :
    NoOverlap (vilka_extractor text) ∧ NoOverlap (location_extractor text) ∧
    NoOverlap (position_extractor text) ∧ NoOverlap (company_email_matches text) ∧
    NoOverlap (company_dict_matches text) := by
  have key : ∀ ms : List Match,
      ms.Pairwise (fun a b => a.stop ≤ b.start) → NoOverlap ms := by
    intro ms h
    exact h.imp (fun hxy => by rintro ⟨h1, h2⟩; omega)
  exact ⟨key _ (vilka_extractor_ord text).2, key _ (location_extractor_ord text).2,
    key _ (position_extractor_ord text).2, key _ (company_email_matches_ord text).2,
    key _ (company_dict_matches_ord text).2⟩

/-- Claim C8 amended: within each grammar-based extractor's stream, and
within each of the company extractor's two source streams taken
separately, match starts are non-decreasing left to right; the company
extractor's merged stream is not ordered (see the counterexample). -/
theorem C8_amended_sorted (text : String) :
    SortedStarts (vilka_extractor text) ∧ SortedStarts (location_extractor text) ∧
    SortedStarts (position_extractor text) ∧
    SortedStarts (company_email_matches text) ∧
    SortedStarts (company_dict_matches text) := by
  have key : ∀ ms : List Match,
      (∀ m ∈ ms, m.start < m.stop) →
      ms.Pairwise (fun a b => a.stop ≤ b.start) → SortedStarts ms := by
    intro ms hpos h
    refine h.imp_of_mem (fun ha hb hxy => ?_)
    have := hpos _ ha
    omega
  exact ⟨key _ (vilka_extractor_ord text).1 (vilka_extractor_ord text).2,
    key _ (location_extractor_ord text).1 (location_extractor_ord text).2,
    key _ (position_extractor_ord text).1 (position_extractor_ord text).2,
    key _ (company_email_matches_ord text).1 (company_email_matches_ord text).2,
    key _ (company_dict_matches_ord text).1 (company_dict_matches_ord text).2⟩

/-- Claim C10 witness at a concrete Location match. -/
theorem C10_witness :
    (⟨0, 6, constLOCATION, FactValue.location ⟨some MSK, none, none⟩⟩ : Match) ∈
        location_extractor "Москва" ∧
    ∃ l : LocationF,
      (FactValue.location ⟨some MSK, none, none⟩) = FactValue.location l ∧
      ((∃ c, l = ⟨some c, none, none⟩) ∨
       (∃ s, l = ⟨none, some s, none⟩) ∨
       l = ⟨none, none, some true⟩) :=
  ⟨by decide, C10_location_exactly_one "Москва"
    ⟨0, 6, constLOCATION, FactValue.location ⟨some MSK, none, none⟩⟩ (by decide)⟩

end Ods
